import Mathlib

/-!
Verification of the MP4-to-MP3 converter's batch conversion pipeline.

The definitions below are a shallow embedding of `main.py`:

* `ConversionTask` mirrors the `ConversionTask` class (the `start_time` and
  `end_time` wall-clock fields are omitted: no property below mentions them).
* `buildCmd` mirrors the FFmpeg argument construction in
  `ConversionWorker._convert_single`, including Python's negative-index
  `list.insert` semantics (`insertNeg`).
* `runFrom` / `convertSingle` mirror `ConversionWorker.run` and
  `ConversionWorker._convert_single`.  External effects are abstracted by a
  per-task `TaskEnv` (whether `os.makedirs` succeeds, and the exit code and
  stderr of the ffmpeg child process).  The one-way `is_running` flag is
  modelled by a cut-off position `stopAt`: the flag reads are serialised, and
  the n-th read returns `true` iff `n < stopAt`; `stopAt = none` means the
  stop signal is never set.  Every observable action of the worker (direct
  field writes on tasks, Qt signal emissions, the `subprocess.run` call) is
  recorded in an ordered trace of `Mut` events; the handler of the
  `progress_updated` signal (`ConversionProgressWidget.update_progress`)
  writes `task.progress`, which the embedding performs when the event is
  emitted.  Cover-art extraction and tag copying after a successful exit are
  modelled as no-ops: in the source they only touch the output file and emit
  warning logs, never the task state.
* `addFileToList`, `clearListOp`, `startConversionFlags` mirror
  `MainWindow._add_file_to_list`, `MainWindow._clear_list` and the UI
  enabling/disabling in `MainWindow._start_conversion`; the file system is
  abstracted as `String → Option Nat` (byte size of existing files).
* `AppConfig`, `saveSettings`, `loadSettings`, `loadFromFile` mirror the
  `AppConfig` dataclass and `MainWindow._save_settings` / `_load_settings`;
  a persisted JSON document is a key/value list, and a missing, unreadable
  or unparsable file is the `none` case (the source's bare `except: pass`).
-/

namespace Mp4ToMp3

/-- Task lifecycle states, the string statuses of `ConversionTask.status`. -/
inductive TaskStatus where
  | pending
  | converting
  | completed
  | failed
deriving DecidableEq, Repr

/-- Mirror of the `ConversionTask` class state (wall-clock timestamps
omitted; no claim mentions them). -/
structure ConversionTask where
  input_path : String
  output_path : String
  status : TaskStatus := .pending
  progress : Nat := 0
  error_message : String := ""
  file_size : Nat := 0
deriving DecidableEq, Repr

/-- Mirror of the per-run `config` dict built in
`MainWindow._start_conversion` and read by the worker via `config.get`.
`target_db` is the decimal rendering of the Python float (the float is only
ever interpolated into the `volume=...dB` filter string). -/
structure WorkerConfig where
  bitrate : String
  preserve_metadata : Bool
  extract_cover : Bool
  normalize : Bool
  target_db : String
deriving DecidableEq, Repr

/-- Python `xs.insert(-k, x)` for `k ≤ len xs`: insert `x` so that the last
`k` elements of `xs` come after it. -/
def insertNeg (xs : List α) (k : Nat) (x : α) : List α :=
  xs.take (xs.length - k) ++ x :: xs.drop (xs.length - k)

/-- The FFmpeg command list built in `ConversionWorker._convert_single`
(lines 133-153): the base command, then four `insert(-1, _)` calls when
`preserve_metadata`, then two `insert(-2, _)` calls when `normalize`. -/
def buildCmd (cfg : WorkerConfig) (input output : String) : List String :=
  let cmd := ["ffmpeg", "-i", input,
    "-codec:a", "libmp3lame",
    "-b:a", cfg.bitrate,
    "-q:a", "2",
    "-y", output]
  let cmd := if cfg.preserve_metadata then
      insertNeg (insertNeg (insertNeg (insertNeg cmd 1 "-map_metadata") 1 "0")
        1 "-id3v2_version") 1 "3"
    else cmd
  let cmd := if cfg.normalize then
      insertNeg (insertNeg cmd 2 "-af") 2 ("volume=" ++ cfg.target_db ++ "dB")
    else cmd
  cmd

/-- `hasAdjPair a b xs` holds iff `xs` contains `a` immediately followed
by `b`. -/
def hasAdjPair (a b : String) : List String → Bool
  | [] => false
  | [_] => false
  | x :: y :: rest => (x == a && y == b) || hasAdjPair a b (y :: rest)

/-- Abstraction of the external effects one task can encounter: whether
`os.makedirs` succeeds (and the exception text if not), and the exit code
and stderr of the ffmpeg child process. -/
structure TaskEnv where
  mkdirOk : Bool
  mkdirErr : String
  exitCode : Nat
  stderr : String

/-- The serialised reads of the one-way `is_running` flag: the read at
position `c` returns `true` iff `c < stopAt`; `none` means `stop()` is
never called.  Once a read returns `false` every later read does too,
which is exactly the one-way flag of `ConversionWorker.stop`. -/
def isRun (stopAt : Option Nat) (c : Nat) : Bool :=
  match stopAt with
  | none => true
  | some s => c < s

/-- `range(0, 101, 10)` of the simulated progress loop. -/
def ticks : List Nat := [0, 10, 20, 30, 40, 50, 60, 70, 80, 90, 100]

/-- Observable actions of the worker, in emission order: direct writes to
the shared task objects, Qt signal emissions, and the `subprocess.run`
invocation of the conversion command.  `setProgress` covers the
`progress_updated` signal together with its UI handler writing
`task.progress` (`ConversionProgressWidget.update_progress`). -/
inductive Mut where
  | emitStarted (i : Nat)
  | setStatus (i : Nat) (s : TaskStatus)
  | setProgress (i : Nat) (p : Nat)
  | logEv (msg level : String)
  | invoke (i : Nat) (cmd : List String)
  | emitCompleted (i : Nat) (ok : Bool) (msg : String)
deriving DecidableEq, Repr

/-- Result of the simulated progress loop: ticks emitted before a stop was
observed, whether the loop ran to completion, and the flag-read position
after the loop. -/
structure SimRes where
  ticksDone : List Nat
  finished : Bool
  pos : Nat
deriving Repr

/-- The `for progress in range(0, 101, 10)` loop of `_convert_single`:
each iteration first reads `is_running` (one position), returning
`(False, "Conversion cancelled")` when it is unset, and otherwise emits
the tick. -/
def simProgress (stopAt : Option Nat) : List Nat → Nat → SimRes
  | [], c => ⟨[], true, c⟩
  | p :: ps, c =>
    if isRun stopAt c then
      let r := simProgress stopAt ps (c + 1)
      ⟨p :: r.ticksDone, r.finished, r.pos⟩
    else
      ⟨[], false, c + 1⟩

/-- Result of `_convert_single`: its trace, the returned `(success,
message)` pair, the task's progress field after the call (written by the
progress-signal handler), and the flag-read position after the call. -/
structure ConvRes where
  trace : List Mut
  ok : Bool
  msg : String
  prog : Nat
  pos : Nat

/-- Split a character list at every occurrence of `c` (the pieces, in
order, without the separators); character-level counterpart of Python's
`str.split`. -/
def splitOnChar (c : Char) : List Char → List Char → List (List Char)
  | [], acc => [acc.reverse]
  | x :: xs, acc =>
    if x = c then acc.reverse :: splitOnChar c xs []
    else splitOnChar c xs (x :: acc)

/-- Python's `str[:n]` (by code point). -/
def strTake (s : String) (n : Nat) : String :=
  String.mk (s.data.take n)

/-- `os.path.basename` for POSIX-style paths. -/
def baseName (p : String) : String :=
  String.mk ((splitOnChar '/' p.data []).getLastD p.data)

/-- Mirror of `ConversionWorker._convert_single` for task index `i`
(distinct task objects make `self.tasks.index(task)` equal to `i`).
The branches are, in source order: the `os.makedirs` failure caught by the
catch-all `except` clause; the `log_message` emission; the simulated
progress loop; the `subprocess.run` invocation and the exit-code test.
Cover-art extraction and tag copying on success only log warnings and are
modelled as no-ops. -/
def convertSingle (cfg : WorkerConfig) (stopAt : Option Nat) (e : TaskEnv)
    (i c : Nat) (t : ConversionTask) : ConvRes :=
  if e.mkdirOk then
    let cmd := buildCmd cfg t.input_path t.output_path
    let r := simProgress stopAt ticks c
    let evs := Mut.logEv ("Converting: " ++ baseName t.input_path) "info"
      :: r.ticksDone.map (Mut.setProgress i)
    if r.finished then
      let success := e.exitCode == 0
      let msg := if success then "Conversion successful"
        else "FFmpeg error: " ++ strTake e.stderr 200
      ⟨evs ++ [Mut.invoke i cmd], success, msg, r.ticksDone.getLastD t.progress, r.pos⟩
    else
      ⟨evs, false, "Conversion cancelled", r.ticksDone.getLastD t.progress, r.pos⟩
  else
    ⟨[], false, "Conversion error: " ++ e.mkdirErr, t.progress, c⟩

/-- Result of the worker loop: the trace, the final task objects, and the
flag-read position after the loop. -/
structure RunRes where
  trace : List Mut
  tasks : List ConversionTask
  pos : Nat

/-- Mirror of `ConversionWorker.run`: iterate the tasks in order starting
at index `i`; at each iteration first read `is_running` and break when it
is unset, otherwise emit `conversion_started`, set the status to
`converting`, call `_convert_single`, set the terminal status and error
message, and emit `task_completed`.  After a failed boundary read the loop
exits and no further read occurs, so the returned position is the position
of that read. -/
def runFrom (cfg : WorkerConfig) (stopAt : Option Nat) (env : Nat → TaskEnv) :
    Nat → Nat → List ConversionTask → RunRes
  | _, c, [] => ⟨[], [], c⟩
  | i, c, t :: rest =>
    if isRun stopAt c then
      let r := convertSingle cfg stopAt (env i) i (c + 1) t
      let st : TaskStatus := if r.ok then .completed else .failed
      let t' : ConversionTask :=
        { t with status := st
                 error_message := if r.ok then "" else r.msg
                 progress := r.prog }
      let seg := Mut.emitStarted i :: Mut.setStatus i .converting :: r.trace
        ++ [Mut.setStatus i st, Mut.emitCompleted i r.ok r.msg]
      let rest' := runFrom cfg stopAt env (i + 1) r.pos rest
      ⟨seg ++ rest'.trace, t' :: rest'.tasks, rest'.pos⟩
    else
      ⟨[], t :: rest, c⟩

/-- One whole run of the worker over the registry. -/
def runWorker (cfg : WorkerConfig) (stopAt : Option Nat) (env : Nat → TaskEnv)
    (ts : List ConversionTask) : RunRes :=
  runFrom cfg stopAt env 0 0 ts

/-- The per-task outcome of an uncancelled run, as `run` leaves the task
object: makedirs failure or a non-zero exit mark the task failed, a zero
exit marks it completed; the simulated loop has driven `progress` to 100
whenever makedirs succeeded. -/
def taskResult (e : TaskEnv) (t : ConversionTask) : ConversionTask :=
  if e.mkdirOk then
    if e.exitCode == 0 then
      { t with status := .completed, progress := 100, error_message := "" }
    else
      { t with status := .failed, progress := 100,
               error_message := "FFmpeg error: " ++ strTake e.stderr 200 }
  else
    { t with status := .failed,
             error_message := "Conversion error: " ++ e.mkdirErr }

/-- `taskResult` applied pointwise along the registry from index `i`. -/
def resultList (env : Nat → TaskEnv) : Nat → List ConversionTask → List ConversionTask
  | _, [] => []
  | i, t :: rest => taskResult (env i) t :: resultList env (i + 1) rest

/-- Select the percentage of a `Progress` event of task `i`. -/
def progressOf (i : Nat) : Mut → Option Nat
  | .setProgress j p => if j = i then some p else none
  | _ => none

/-- Recognise the conversion-command invocation for task `i`. -/
def isInvokeOf (i : Nat) : Mut → Bool
  | .invoke j _ => j == i
  | _ => false

/-- Text before the last dot of `s`, or `s` itself when there is none. -/
def dropExt (s : String) : String :=
  let parts := splitOnChar '.' s.data []
  if parts.length ≤ 1 then s
  else String.mk (List.intercalate ['.'] parts.dropLast)

/-- `Path(input_path).with_suffix(given ".mp3")` as used by
`ConversionTask.__init__` for single-extension file names; no claim
inspects the derived path. -/
def withSuffixMp3 (p : String) : String :=
  dropExt p ++ ".mp3"

/-- Mirror of `ConversionTask.__init__(input_path)`: the file system is
`fs : String → Option Nat`, giving the byte size when the path exists and
`none` when it does not, so `file_size` is
`os.path.getsize(input_path) if os.path.exists(input_path) else 0`. -/
def mkConversionTask (fs : String → Option Nat) (input : String) : ConversionTask :=
  { input_path := input
    output_path := withSuffixMp3 input
    status := .pending
    progress := 0
    error_message := ""
    file_size := (fs input).getD 0 }

/-- The registry-facing state of `MainWindow`: the rows of `file_list`
(identified by the `UserRole` path each row stores) and the `tasks`
list. -/
structure WindowState where
  items : List String
  tasks : List ConversionTask
deriving DecidableEq, Repr

/-- Mirror of `MainWindow._add_file_to_list`: scan the existing list rows
for the same path and return without any change when found; otherwise
append a row and a freshly constructed task. -/
def addFileToList (fs : String → Option Nat) (st : WindowState)
    (path : String) : WindowState :=
  if path ∈ st.items then st
  else
    { items := st.items ++ [path]
      tasks := st.tasks ++ [mkConversionTask fs path] }

/-- The user's answer to the `QMessageBox.question` confirmation. -/
inductive Reply where
  | yes
  | no
deriving DecidableEq

/-- Mirror of `MainWindow._clear_list`: after a confirmed dialog it clears
the list widget and the task registry unconditionally — the function reads
no run state at all, which is why it takes none. -/
def clearListOp (st : WindowState) (r : Reply) : WindowState :=
  match r with
  | .yes => { st with items := [], tasks := [] }
  | .no => st

/-- Enabled state of the controls that can reach `_clear_list` and the
run controls, as in `MainWindow._setup_ui` / `_setup_menu`.
`clear_menu_action` is the File-menu `Clear List` action (shortcut
Ctrl+L); the source never calls `setEnabled` on it. -/
structure UiFlags where
  start_btn : Bool
  pause_btn : Bool
  stop_btn : Bool
  add_files_btn : Bool
  add_folder_btn : Bool
  clear_list_btn : Bool
  clear_menu_action : Bool
deriving DecidableEq, Repr

/-- Control state after `MainWindow.__init__`: pause and stop start
disabled, everything else (including the menu action) enabled. -/
def uiInit : UiFlags :=
  ⟨true, false, false, true, true, true, true⟩

/-- The control updates performed at the top of
`MainWindow._start_conversion` (lines 1136-1141): the six buttons are
toggled, the menu action is left untouched. -/
def startConversionFlags (u : UiFlags) : UiFlags :=
  { u with start_btn := false
           pause_btn := true
           stop_btn := true
           add_files_btn := false
           add_folder_btn := false
           clear_list_btn := false }

/-- Values a field of the persisted settings document can hold; every
`AppConfig` field is a JSON string, boolean or integer. -/
inductive JVal where
  | jstr (s : String)
  | jbool (b : Bool)
  | jnum (n : Nat)
deriving DecidableEq, Repr

/-- Mirror of the `AppConfig` dataclass with its declared defaults
(`output_directory` is kept home-relative rather than expanded). -/
structure AppConfig where
  default_bitrate : String := "192k"
  default_format : String := "mp3"
  output_directory : String := "~/ConvertedAudio"
  preserve_metadata : Bool := true
  extract_cover : Bool := true
  theme : String := "dark"
  max_concurrent : Nat := 2
  auto_clear_list : Bool := false
  notification_sound : Bool := true
deriving DecidableEq, Repr

/-- Mirror of `MainWindow._save_settings`: `json.dump(self.config.__dict__)`
writes every field under its name, in dataclass declaration order. -/
def saveSettings (c : AppConfig) : List (String × JVal) :=
  [("default_bitrate", .jstr c.default_bitrate),
   ("default_format", .jstr c.default_format),
   ("output_directory", .jstr c.output_directory),
   ("preserve_metadata", .jbool c.preserve_metadata),
   ("extract_cover", .jbool c.extract_cover),
   ("theme", .jstr c.theme),
   ("max_concurrent", .jnum c.max_concurrent),
   ("auto_clear_list", .jbool c.auto_clear_list),
   ("notification_sound", .jbool c.notification_sound)]

/-- One `setattr(self.config, key, value)` guarded by
`hasattr(self.config, key)`: a key that names no field leaves the config
unchanged.  The typed fields can only absorb a value of their own shape;
documents produced by `saveSettings` are always well-shaped, and no claim
exercises ill-shaped values. -/
def setKey (c : AppConfig) (k : String) (v : JVal) : AppConfig :=
  if k = "default_bitrate" then
    match v with | .jstr s => { c with default_bitrate := s } | _ => c
  else if k = "default_format" then
    match v with | .jstr s => { c with default_format := s } | _ => c
  else if k = "output_directory" then
    match v with | .jstr s => { c with output_directory := s } | _ => c
  else if k = "preserve_metadata" then
    match v with | .jbool b => { c with preserve_metadata := b } | _ => c
  else if k = "extract_cover" then
    match v with | .jbool b => { c with extract_cover := b } | _ => c
  else if k = "theme" then
    match v with | .jstr s => { c with theme := s } | _ => c
  else if k = "max_concurrent" then
    match v with | .jnum n => { c with max_concurrent := n } | _ => c
  else if k = "auto_clear_list" then
    match v with | .jbool b => { c with auto_clear_list := b } | _ => c
  else if k = "notification_sound" then
    match v with | .jbool b => { c with notification_sound := b } | _ => c
  else c

/-- Whether a key names an `AppConfig` field (`hasattr(self.config, key)`). -/
def isKnownKey (k : String) : Bool :=
  k == "default_bitrate" || k == "default_format" || k == "output_directory" ||
  k == "preserve_metadata" || k == "extract_cover" || k == "theme" ||
  k == "max_concurrent" || k == "auto_clear_list" || k == "notification_sound"

/-- The loop body of `MainWindow._load_settings` over a parsed document. -/
def loadSettings (doc : List (String × JVal)) (c : AppConfig) : AppConfig :=
  doc.foldl (fun acc kv => setKey acc kv.1 kv.2) c

/-- Mirror of `MainWindow._load_settings` as a whole: `none` stands for a
missing settings file, an unreadable file or a `json.load` failure, all of
which the source swallows (`except: pass`), leaving the config as it was. -/
def loadFromFile (r : Option (List (String × JVal))) (c : AppConfig) : AppConfig :=
  match r with
  | none => c
  | some doc => loadSettings doc c

/-- Read a field of the config back under its settings-file key. -/
def getField (k : String) (c : AppConfig) : Option JVal :=
  if k = "default_bitrate" then some (.jstr c.default_bitrate)
  else if k = "default_format" then some (.jstr c.default_format)
  else if k = "output_directory" then some (.jstr c.output_directory)
  else if k = "preserve_metadata" then some (.jbool c.preserve_metadata)
  else if k = "extract_cover" then some (.jbool c.extract_cover)
  else if k = "theme" then some (.jstr c.theme)
  else if k = "max_concurrent" then some (.jnum c.max_concurrent)
  else if k = "auto_clear_list" then some (.jbool c.auto_clear_list)
  else if k = "notification_sound" then some (.jbool c.notification_sound)
  else none

/-! Concrete fixtures used by witnesses and counterexamples. -/

/-- The config dict `_start_conversion` builds with default UI choices. -/
def cfgDefault : WorkerConfig := ⟨"192k", true, true, false, "-1.0"⟩

/-- A run configuration with both metadata preservation and normalization
requested. -/
def cfgBoth : WorkerConfig := ⟨"192k", true, false, true, "-1.0"⟩

/-- A 500000-byte source file already turned into a task. -/
def taskA : ConversionTask := ⟨"a.mp4", "a.mp3", .pending, 0, "", 500000⟩

/-- A 300000-byte source file already turned into a task. -/
def taskB : ConversionTask := ⟨"b.mp4", "b.mp3", .pending, 0, "", 300000⟩

/-- Environment where every conversion succeeds. -/
def envGood : Nat → TaskEnv := fun _ => ⟨true, "", 0, ""⟩

/-- Environment where ffmpeg exits 1 with stderr `boom` for every task. -/
def envFfmpegFail : Nat → TaskEnv := fun _ => ⟨true, "", 1, "boom"⟩

/-- Environment where `os.makedirs` raises for every task. -/
def envMkdirFail : Nat → TaskEnv := fun _ => ⟨false, "denied", 0, ""⟩

/-- File system with a single 500000-byte file `a.mp4`. -/
def fsA : String → Option Nat := fun p => if p = "a.mp4" then some 500000 else none

/-!
## C1

The claim states that in the built FFmpeg command `-map_metadata` is
immediately followed by `0`, `-id3v2_version` immediately followed by `3`,
`-af` immediately followed by the volume filter, with the output path
last, for every combination of `preserve_metadata` and `normalize`.  The
code violates this when both flags are true: the two `insert(-2, _)` calls
for the filter land between `-id3v2_version` and its value `3`, so the tag
version option is followed by `-af` instead of `3`.
-/

/-- C1: with `preserve_metadata = true` and `normalize = true` the command
built by `_convert_single` is the list below, in which `-map_metadata` is
still followed by `0` and `-af` by its filter, but `-id3v2_version` is
immediately followed by `-af`, not by `3` — the claimed flag/value pairing
fails for this combination (the code slips with `insert(-2, _)`). -/
theorem conv_C1_pairing_bug :
    buildCmd cfgBoth "in.mp4" "out.mp3" =
      ["ffmpeg", "-i", "in.mp4", "-codec:a", "libmp3lame", "-b:a", "192k",
       "-q:a", "2", "-y", "-map_metadata", "0", "-id3v2_version", "-af",
       "volume=-1.0dB", "3", "out.mp3"] ∧
    hasAdjPair "-map_metadata" "0" (buildCmd cfgBoth "in.mp4" "out.mp3") = true ∧
    hasAdjPair "-af" "volume=-1.0dB" (buildCmd cfgBoth "in.mp4" "out.mp3") = true ∧
    hasAdjPair "-id3v2_version" "3" (buildCmd cfgBoth "in.mp4" "out.mp3") = false ∧
    hasAdjPair "-id3v2_version" "-af" (buildCmd cfgBoth "in.mp4" "out.mp3") = true :=
  ⟨rfl, rfl, rfl, rfl, rfl⟩

/-!
## C2

The claim states progress equals 100 exactly when the status transitions
to `completed`, so a failed task never has progress 100.  The simulated
progress loop drives the progress to 100 before `subprocess.run` is even
called, so a task whose ffmpeg exits non-zero ends `failed` with progress
100.
-/

set_option maxRecDepth 8192 in
/-- C2: one task, ffmpeg exits 1 with stderr `boom`, no cancellation: the
worker leaves the task `failed` with `progress = 100`, refuting that
progress reaches 100 only on the transition to `completed`. -/
theorem conv_C2_progress_bug :
    (runWorker cfgDefault none envFfmpegFail [taskA]).tasks =
      [⟨"a.mp4", "a.mp3", .failed, 100, "FFmpeg error: boom", 500000⟩] ∧
    Mut.setStatus 0 .failed ∈ (runWorker cfgDefault none envFfmpegFail [taskA]).trace ∧
    Mut.setProgress 0 100 ∈ (runWorker cfgDefault none envFfmpegFail [taskA]).trace := by
  refine ⟨rfl, ?_, ?_⟩ <;> decide

/-!
## C5

The claim states `clear()` during a run is rejected with a StateError and
leaves the registry unchanged.  `_clear_list` contains no run-state check
at all: after the confirmation dialog it unconditionally clears the list
and the registry.  `_start_conversion` disables the `Clear List` button,
but the File-menu `Clear List` action (Ctrl+L) wired in `_setup_menu` is
never disabled, so `_clear_list` is reachable mid-run and clears the
registry with no error of any kind.
-/

/-- C5: the menu path to `_clear_list` stays enabled after a run starts,
and a confirmed `_clear_list` empties a non-empty registry
unconditionally — there is no StateError and the registry does not stay
unchanged. -/
theorem conv_C5_clear_bug :
    (startConversionFlags uiInit).clear_menu_action = true ∧
    clearListOp ⟨["a.mp4"], [taskA]⟩ .yes = ⟨[], []⟩ ∧
    (clearListOp ⟨["a.mp4"], [taskA]⟩ .yes).tasks.length = 0 :=
  ⟨rfl, rfl, rfl⟩

/-!
## C6

The claim states an unreadable input is rejected with a FileAccessError
and not added.  `ConversionTask.__init__` instead maps a missing file to
`file_size = 0` and `_add_file_to_list` performs no readability check, so
the task is added anyway; only the readable half of the claim (size
captured at add-time) holds.
-/

/-- C6 counterexample: on a file system where `ghost.mp4` does not exist,
`_add_file_to_list` still appends a task (with `file_size = 0`) and
reports nothing, refuting that an unreadable path is rejected. -/
theorem conv_C6_cex :
    addFileToList (fun _ => none) ⟨[], []⟩ "ghost.mp4" =
      ⟨["ghost.mp4"], [⟨"ghost.mp4", "ghost.mp3", .pending, 0, "", 0⟩]⟩ ∧
    (addFileToList (fun _ => none) ⟨[], []⟩ "ghost.mp4").tasks.length = 1 := by
  constructor <;> rfl

/-- C6 amended: `add()` of a path not already listed always appends one
task and reports no error; the task's `file_size` is the byte size read
at add-time when the file exists and `0` when it does not. -/
theorem conv_C6_add_unchecked (fs : String → Option Nat) (st : WindowState)
    (p : String) (h : p ∉ st.items) :
    addFileToList fs st p =
      ⟨st.items ++ [p], st.tasks ++ [mkConversionTask fs p]⟩ ∧
    (∀ n, fs p = some n → (mkConversionTask fs p).file_size = n) ∧
    (fs p = none → (mkConversionTask fs p).file_size = 0) := by
  refine ⟨?_, ?_, ?_⟩
  · simp [addFileToList, h]
  · intro n hn
    simp [mkConversionTask, hn]
  · intro hn
    simp [mkConversionTask, hn]

/-- C6 amended, instantiated: adding `ghost.mp4` on the file system that
only has `a.mp4` appends a zero-size task. -/
theorem conv_C6_add_unchecked_witness :
    addFileToList fsA ⟨["a.mp4"], [mkConversionTask fsA "a.mp4"]⟩ "ghost.mp4" =
      ⟨["a.mp4", "ghost.mp4"],
       [mkConversionTask fsA "a.mp4", mkConversionTask fsA "ghost.mp4"]⟩ ∧
    (mkConversionTask fsA "ghost.mp4").file_size = 0 := by
  have h := conv_C6_add_unchecked fsA ⟨["a.mp4"], [mkConversionTask fsA "a.mp4"]⟩
    "ghost.mp4" (by decide)
  exact ⟨h.1, h.2.2 (by decide)⟩

/-!
## C7

`_add_file_to_list` scans the existing rows and returns without touching
anything when the path is already present.  Each task is only ever created
together with its row, so a path present in the registry is present among
the rows, and the add is a no-op; the source signals nothing, which is the
spec's own "rejected silently from the caller's perspective" reading of
DuplicateError.
-/

/-- C7: if every registered task's path has its list row (the invariant
the window maintains) and `p` is already the path of some registered
task, then `add(p)` returns the state unchanged: same rows, same tasks,
no duplicate. -/
theorem conv_C7_duplicate (fs : String → Option Nat) (st : WindowState)
    (p : String) (hsub : ∀ t ∈ st.tasks, t.input_path ∈ st.items)
    (hmem : ∃ t ∈ st.tasks, t.input_path = p) :
    addFileToList fs st p = st := by
  obtain ⟨t, ht, hp⟩ := hmem
  have hin : p ∈ st.items := hp ▸ hsub t ht
  simp [addFileToList, hin]

/-- C7 instantiated: re-adding `a.mp4` to a registry that already holds it
changes nothing. -/
theorem conv_C7_duplicate_witness :
    addFileToList fsA ⟨["a.mp4"], [mkConversionTask fsA "a.mp4"]⟩ "a.mp4" =
      ⟨["a.mp4"], [mkConversionTask fsA "a.mp4"]⟩ :=
  conv_C7_duplicate fsA ⟨["a.mp4"], [mkConversionTask fsA "a.mp4"]⟩ "a.mp4"
    (by decide) (by decide)

/-!
## C8

`_save_settings` dumps every `AppConfig` field under its own name;
`_load_settings` walks the document and sets every key that names a field.
A saved document mentions all nine fields, so loading it over any current
config reproduces the saved config exactly.
-/

/-- C8: saving an `AppConfig` and loading the resulting document over any
starting config reproduces every field value of the saved config. -/
theorem conv_C8_roundtrip (c d : AppConfig) :
    loadSettings (saveSettings c) d = c := by
  cases c
  rfl

/-!
## Worker-loop lemmas

Structural facts about `runFrom` used to settle C3, C4 and C10: behaviour
without a stop signal, decomposition along the task list, which task ids
can occur in the trace, and what a still-running flag at the end of a
prefix implies about the prefix.
-/

/-- Without a stop signal the simulated loop emits every tick and consumes
one flag read per tick. -/
theorem simProgress_none (ps : List Nat) (c : Nat) :
    simProgress none ps c = ⟨ps, true, c + ps.length⟩ := by
  induction ps generalizing c with
  | nil => simp [simProgress]
  | cons p ps ih =>
    simp [simProgress, isRun, ih]
    omega

/-- Without a stop signal, `_convert_single` on a creatable output
directory logs, emits the full tick sequence, invokes the command, and
returns success exactly when ffmpeg exits 0. -/
theorem convertSingle_none_ok (cfg : WorkerConfig) (e : TaskEnv) (i c : Nat)
    (t : ConversionTask) (h : e.mkdirOk = true) :
    convertSingle cfg none e i c t =
      ⟨Mut.logEv ("Converting: " ++ baseName t.input_path) "info"
         :: ticks.map (Mut.setProgress i)
         ++ [Mut.invoke i (buildCmd cfg t.input_path t.output_path)],
       e.exitCode == 0,
       if e.exitCode == 0 then "Conversion successful"
         else "FFmpeg error: " ++ strTake e.stderr 200,
       100, c + 11⟩ := by
  simp [convertSingle, h, simProgress_none, ticks]

/-- When the output directory cannot be created, `_convert_single` fails
with no events and no flag reads. -/
theorem convertSingle_mkdir_fail (cfg : WorkerConfig) (stopAt : Option Nat)
    (e : TaskEnv) (i c : Nat) (t : ConversionTask) (h : e.mkdirOk = false) :
    convertSingle cfg stopAt e i c t =
      ⟨[], false, "Conversion error: " ++ e.mkdirErr, t.progress, c⟩ := by
  simp [convertSingle, h]

/-- The flag is up at every read when `stop()` is never called. -/
theorem isRun_none (c : Nat) : isRun none c = true := rfl

/-- Without a stop signal, the final task objects are exactly the
pointwise results. -/
theorem runFrom_none_tasks (cfg : WorkerConfig) (env : Nat → TaskEnv) :
    ∀ (ts : List ConversionTask) (i c : Nat),
    (runFrom cfg none env i c ts).tasks = resultList env i ts := by
  intro ts
  induction ts with
  | nil => intro i c; rfl
  | cons t rest ih =>
    intro i c
    by_cases h : (env i).mkdirOk
    · rw [runFrom, if_pos (isRun_none c),
        convertSingle_none_ok cfg (env i) i (c + 1) t h, resultList]
      by_cases h2 : (env i).exitCode == 0 <;> simp [taskResult, h, h2, ih]
    · simp only [Bool.not_eq_true] at h
      rw [runFrom, if_pos (isRun_none c),
        convertSingle_mkdir_fail cfg none (env i) i (c + 1) t h, resultList]
      simp [taskResult, h, ih]

/-- Index lookup in the pointwise result list. -/
theorem resultList_get (env : Nat → TaskEnv) :
    ∀ (ts : List ConversionTask) (i j : Nat) (hj : j < ts.length),
    (resultList env i ts).get? j = some (taskResult (env (i + j)) (ts.get ⟨j, hj⟩)) := by
  intro ts
  induction ts with
  | nil => intro i j hj; exact absurd hj (by simp)
  | cons t rest ih =>
    intro i j hj
    cases j with
    | zero => simp [resultList]
    | succ j =>
      have hj' : j < rest.length := by simpa using hj
      have heq : i + (j + 1) = i + 1 + j := by omega
      rw [heq, resultList]
      simpa using ih (i + 1) j hj'

/-- Without a stop signal every task is started. -/
theorem runFrom_none_started (cfg : WorkerConfig) (env : Nat → TaskEnv) :
    ∀ (ts : List ConversionTask) (i c j : Nat), j < ts.length →
    Mut.emitStarted (i + j) ∈ (runFrom cfg none env i c ts).trace := by
  intro ts
  induction ts with
  | nil => intro i c j hj; exact absurd hj (by simp)
  | cons t rest ih =>
    intro i c j hj
    cases j with
    | zero =>
      rw [Nat.add_zero, runFrom, if_pos (isRun_none c)]
      simp
    | succ j =>
      have hj' : j < rest.length := by simpa using hj
      have hmem := ih (i + 1) (convertSingle cfg none (env i) i (c + 1) t).pos j hj'
      have heq : i + (j + 1) = i + 1 + j := by omega
      rw [runFrom, if_pos (isRun_none c), heq]
      simp only [List.mem_append, List.mem_cons]
      tauto

/-- A failed boundary read exits the loop with nothing done. -/
theorem runFrom_stopped (cfg : WorkerConfig) (stopAt : Option Nat)
    (env : Nat → TaskEnv) (i c : Nat) (ts : List ConversionTask)
    (h : isRun stopAt c = false) :
    runFrom cfg stopAt env i c ts = ⟨[], ts, c⟩ := by
  cases ts with
  | nil => rfl
  | cons t rest => rw [runFrom, if_neg (by simp [h])]

/-- One successful boundary read processes the head task and continues on
the tail from the resulting flag position. -/
theorem runFrom_cons_of_run (cfg : WorkerConfig) (stopAt : Option Nat)
    (env : Nat → TaskEnv) (i c : Nat) (t : ConversionTask)
    (rest : List ConversionTask) (h : isRun stopAt c = true) :
    runFrom cfg stopAt env i c (t :: rest) =
      ⟨Mut.emitStarted i :: Mut.setStatus i .converting ::
         (convertSingle cfg stopAt (env i) i (c + 1) t).trace
         ++ [Mut.setStatus i
               (if (convertSingle cfg stopAt (env i) i (c + 1) t).ok then
                 TaskStatus.completed else TaskStatus.failed),
             Mut.emitCompleted i (convertSingle cfg stopAt (env i) i (c + 1) t).ok
               (convertSingle cfg stopAt (env i) i (c + 1) t).msg]
         ++ (runFrom cfg stopAt env (i + 1)
               (convertSingle cfg stopAt (env i) i (c + 1) t).pos rest).trace,
       { t with
           status := if (convertSingle cfg stopAt (env i) i (c + 1) t).ok then
             TaskStatus.completed else TaskStatus.failed
           error_message := if (convertSingle cfg stopAt (env i) i (c + 1) t).ok then ""
             else (convertSingle cfg stopAt (env i) i (c + 1) t).msg
           progress := (convertSingle cfg stopAt (env i) i (c + 1) t).prog }
         :: (runFrom cfg stopAt env (i + 1)
               (convertSingle cfg stopAt (env i) i (c + 1) t).pos rest).tasks,
       (runFrom cfg stopAt env (i + 1)
         (convertSingle cfg stopAt (env i) i (c + 1) t).pos rest).pos⟩ := by
  rw [runFrom, if_pos h]

/-- The loop over a concatenation is the loop over the first part followed
by the loop over the second part from the resulting index and position. -/
theorem runFrom_append (cfg : WorkerConfig) (stopAt : Option Nat)
    (env : Nat → TaskEnv) :
    ∀ (a b : List ConversionTask) (i c : Nat),
    runFrom cfg stopAt env i c (a ++ b) =
      ⟨(runFrom cfg stopAt env i c a).trace ++
         (runFrom cfg stopAt env (i + a.length)
           (runFrom cfg stopAt env i c a).pos b).trace,
       (runFrom cfg stopAt env i c a).tasks ++
         (runFrom cfg stopAt env (i + a.length)
           (runFrom cfg stopAt env i c a).pos b).tasks,
       (runFrom cfg stopAt env (i + a.length)
         (runFrom cfg stopAt env i c a).pos b).pos⟩ := by
  intro a
  induction a with
  | nil => intro b i c; simp [runFrom]
  | cons t a ih =>
    intro b i c
    by_cases h : isRun stopAt c
    · have harith : i + (a.length + 1) = i + 1 + a.length := by omega
      rw [List.cons_append, runFrom_cons_of_run cfg stopAt env i c t (a ++ b) h,
        runFrom_cons_of_run cfg stopAt env i c t a h, ih]
      simp [List.length_cons, harith, List.append_assoc]
    · simp only [Bool.not_eq_true] at h
      rw [List.cons_append, runFrom_stopped cfg stopAt env i c _ h,
        runFrom_stopped cfg stopAt env i c _ h,
        runFrom_stopped cfg stopAt env _ c b h]
      simp

/-- The worker loop touches exactly as many task objects as it was
given. -/
theorem runFrom_length (cfg : WorkerConfig) (stopAt : Option Nat)
    (env : Nat → TaskEnv) :
    ∀ (ts : List ConversionTask) (i c : Nat),
    (runFrom cfg stopAt env i c ts).tasks.length = ts.length := by
  intro ts
  induction ts with
  | nil => intro i c; rfl
  | cons t rest ih =>
    intro i c
    by_cases h : isRun stopAt c
    · rw [runFrom_cons_of_run cfg stopAt env i c t rest h]
      simp [ih]
    · simp only [Bool.not_eq_true] at h
      rw [runFrom_stopped cfg stopAt env i c _ h]

/-- `_convert_single` never emits the `conversion_started` signal; the
loop in `run` does. -/
theorem convertSingle_no_started (cfg : WorkerConfig) (stopAt : Option Nat)
    (e : TaskEnv) (i c : Nat) (t : ConversionTask) :
    ∀ m ∈ (convertSingle cfg stopAt e i c t).trace, ∀ j, m ≠ Mut.emitStarted j := by
  intro m hm j
  by_cases h : e.mkdirOk
  · simp only [convertSingle, h, if_true] at hm
    by_cases hfin : (simProgress stopAt ticks c).finished
    · simp [hfin] at hm
      rcases hm with h1 | ⟨p, hp, h1⟩ | h1 <;> subst h1 <;> simp
    · simp [hfin] at hm
      rcases hm with h1 | ⟨p, hp, h1⟩ <;> subst h1 <;> simp
  · simp only [Bool.not_eq_true] at h
    rw [convertSingle_mkdir_fail cfg stopAt e i c t h] at hm
    simp at hm

/-- Every `Started` event in the loop's trace names a task in the index
window the loop was given. -/
theorem runFrom_started_bounds (cfg : WorkerConfig) (stopAt : Option Nat)
    (env : Nat → TaskEnv) :
    ∀ (ts : List ConversionTask) (i c j : Nat),
    Mut.emitStarted j ∈ (runFrom cfg stopAt env i c ts).trace →
    i ≤ j ∧ j < i + ts.length := by
  intro ts
  induction ts with
  | nil => intro i c j hm; simp [runFrom] at hm
  | cons t rest ih =>
    intro i c j hm
    by_cases h : isRun stopAt c
    · rw [runFrom_cons_of_run cfg stopAt env i c t rest h] at hm
      simp only [List.mem_cons, List.mem_append, List.mem_singleton] at hm
      rcases hm with ((h1 | h1 | h1) | h1 | h1) | h1
      · simp only [Mut.emitStarted.injEq] at h1
        subst h1
        constructor <;> simp
      · simp at h1
      · exact absurd rfl (convertSingle_no_started cfg stopAt (env i) i (c + 1) t _ h1 j)
      · simp at h1
      · simp at h1
      · have := ih (i + 1) (convertSingle cfg stopAt (env i) i (c + 1) t).pos j h1
        simp only [List.length_cons]
        omega
    · simp only [Bool.not_eq_true] at h
      rw [runFrom_stopped cfg stopAt env i c _ h] at hm
      simp at hm

/-- If the flag is still up at the position the loop returns, then every
given task was started and driven to a terminal status. -/
theorem runFrom_processed (cfg : WorkerConfig) (stopAt : Option Nat)
    (env : Nat → TaskEnv) :
    ∀ (ts : List ConversionTask) (i c : Nat),
    isRun stopAt ((runFrom cfg stopAt env i c ts).pos) = true →
    ∀ j, (hj : j < ts.length) →
      Mut.emitStarted (i + j) ∈ (runFrom cfg stopAt env i c ts).trace ∧
      ∃ t, (runFrom cfg stopAt env i c ts).tasks.get? j = some t ∧
        (t.status = .completed ∨ t.status = .failed) := by
  intro ts
  induction ts with
  | nil => intro i c _ j hj; exact absurd hj (by simp)
  | cons t rest ih =>
    intro i c hpos j hj
    by_cases h : isRun stopAt c
    · rw [runFrom_cons_of_run cfg stopAt env i c t rest h] at hpos ⊢
      cases j with
      | zero =>
        refine ⟨by simp, ?_⟩
        refine ⟨_, rfl, ?_⟩
        by_cases hok : (convertSingle cfg stopAt (env i) i (c + 1) t).ok <;>
          simp [hok]
      | succ j =>
        have hj' : j < rest.length := by simpa using hj
        have hrec := ih (i + 1)
          (convertSingle cfg stopAt (env i) i (c + 1) t).pos (by simpa using hpos) j hj'
        have heq : i + (j + 1) = i + 1 + j := by omega
        constructor
        · rw [heq]
          simp only [List.mem_cons, List.mem_append]
          tauto
        · simpa using hrec.2
    · simp only [Bool.not_eq_true] at h
      rw [runFrom_stopped cfg stopAt env i c _ h] at hpos
      exact absurd hpos (by simp [h])

/-!
## C4

In `ConversionWorker.run` every iteration is wrapped in its own
`try/except` and `_convert_single` additionally catches every exception
itself, so a failing task — uncreatable output directory, non-zero ffmpeg
exit, or any other exception — only marks that one task `failed` and the
loop moves on.  The theorem states this as: with no stop signal, each
task's final object is a function of that task's own environment alone
(`taskResult`), and every task is started no matter how the others
fail.
-/

/-- C4: without cancellation, task `j` ends in the state determined by its
own environment only — `failed` exactly when its directory creation or
ffmpeg invocation failed, `completed` otherwise — and is always started,
whatever happens to any other task; no failure aborts the batch. -/
theorem conv_C4_isolation (cfg : WorkerConfig) (env : Nat → TaskEnv)
    (ts : List ConversionTask) (j : Nat) (hj : j < ts.length) :
    (runWorker cfg none env ts).tasks.get? j =
      some (taskResult (env j) (ts.get ⟨j, hj⟩)) ∧
    Mut.emitStarted j ∈ (runWorker cfg none env ts).trace := by
  constructor
  · rw [runWorker, runFrom_none_tasks]
    simpa using resultList_get env ts 0 j hj
  · simpa [runWorker] using runFrom_none_started cfg env ts 0 0 j hj

/-- C4 instantiated: in a two-task batch where every ffmpeg call fails,
the second task is still started and ends `failed` on its own account. -/
theorem conv_C4_isolation_witness :
    (runWorker cfgDefault none envFfmpegFail [taskA, taskB]).tasks.get? 1 =
      some (taskResult (envFfmpegFail 1) taskB) ∧
    Mut.emitStarted 1 ∈ (runWorker cfgDefault none envFfmpegFail [taskA, taskB]).trace := by
  have h := conv_C4_isolation cfgDefault envFfmpegFail [taskA, taskB] 1 (by decide)
  simpa using h

/-!
## C3

`run` checks `is_running` at the top of every iteration and breaks when it
is unset; `_convert_single` also checks it before every simulated progress
tick.  The premise "the stop signal is set after task k has started and
before task k+1 starts" is expressed through the serialised flag reads:
the read at the boundary of task k (position `(runFrom … (ts.take k)).pos`)
still returns true (`pos < s`), and by the boundary of task k+1 the flag
is down (`s ≤ (runFrom … (ts.take (k+1))).pos`).  Tasks are 0-indexed, so
the claim's tasks 1..k are indices 0..k here.
-/

/-- Entering an iteration with the flag up starts the head task and
drives it to a terminal status, whatever happens afterwards. -/
theorem runFrom_head_processed (cfg : WorkerConfig) (stopAt : Option Nat)
    (env : Nat → TaskEnv) (i c : Nat) (t : ConversionTask)
    (rest : List ConversionTask) (h : isRun stopAt c = true) :
    Mut.emitStarted i ∈ (runFrom cfg stopAt env i c (t :: rest)).trace ∧
    ∃ u, (runFrom cfg stopAt env i c (t :: rest)).tasks.get? 0 = some u ∧
      (u.status = .completed ∨ u.status = .failed) := by
  rw [runFrom_cons_of_run cfg stopAt env i c t rest h]
  refine ⟨by simp, ⟨_, rfl, ?_⟩⟩
  by_cases hok : (convertSingle cfg stopAt (env i) i (c + 1) t).ok <;> simp [hok]

/-- C3: if the stop flag goes down after task `k`'s boundary read and at
or before task `k+1`'s boundary read, then every task up to `k` is started
and reaches a terminal status (`completed` or `failed`), the `Started`
signal is never emitted for any later task, and every later task object is
left exactly as it was. -/
theorem conv_C3_cancel (cfg : WorkerConfig) (env : Nat → TaskEnv) (s : Nat)
    (ts : List ConversionTask) (k : Nat) (hk : k < ts.length)
    (hstart : (runFrom cfg (some s) env 0 0 (ts.take k)).pos < s)
    (hstop : s ≤ (runFrom cfg (some s) env 0 0 (ts.take (k + 1))).pos) :
    (∀ i, i ≤ k →
      Mut.emitStarted i ∈ (runWorker cfg (some s) env ts).trace ∧
      ∃ t, (runWorker cfg (some s) env ts).tasks.get? i = some t ∧
        (t.status = .completed ∨ t.status = .failed)) ∧
    (∀ j, k < j → Mut.emitStarted j ∉ (runWorker cfg (some s) env ts).trace) ∧
    (∀ j, k < j → (runWorker cfg (some s) env ts).tasks.get? j = ts.get? j) := by
  have hk1 : k + 1 ≤ ts.length := hk
  have hlenk : (ts.take k).length = k := by
    rw [List.length_take]
    omega
  have hlenk1 : (ts.take (k + 1)).length = k + 1 := by
    rw [List.length_take]
    omega
  have htk : ts.take (k + 1) = ts.take k ++ [ts.get ⟨k, hk⟩] := by
    rw [List.take_succ]
    congr 1
    rw [List.getElem?_eq_getElem hk]
    simp
  have hArun : isRun (some s) (runFrom cfg (some s) env 0 0 (ts.take k)).pos = true := by
    simp only [isRun]
    exact decide_eq_true hstart
  -- the run over the first k+1 tasks splits at task k
  have hsplitA := runFrom_append cfg (some s) env (ts.take k) [ts.get ⟨k, hk⟩] 0 0
  rw [← htk] at hsplitA
  -- the whole run splits after the first k+1 tasks, where the flag is down
  have hstopA : isRun (some s) (runFrom cfg (some s) env 0 0 (ts.take (k + 1))).pos = false := by
    simp only [isRun, decide_eq_false_iff_not]
    omega
  have hsplit : runFrom cfg (some s) env 0 0 ts =
      ⟨(runFrom cfg (some s) env 0 0 (ts.take (k + 1))).trace,
       (runFrom cfg (some s) env 0 0 (ts.take (k + 1))).tasks ++ ts.drop (k + 1),
       (runFrom cfg (some s) env 0 0 (ts.take (k + 1))).pos⟩ := by
    have h1 : runFrom cfg (some s) env 0 0 ts =
        runFrom cfg (some s) env 0 0 (ts.take (k + 1) ++ ts.drop (k + 1)) := by
      rw [List.take_append_drop]
    rw [h1, runFrom_append cfg (some s) env (ts.take (k + 1)) (ts.drop (k + 1)) 0 0,
      runFrom_stopped cfg (some s) env _ _ _ hstopA]
    simp
  have hproc := runFrom_processed cfg (some s) env (ts.take k) 0 0 hArun
  have hlenA : (runFrom cfg (some s) env 0 0 (ts.take k)).tasks.length = k := by
    rw [runFrom_length]
    exact hlenk
  have hseglen : (runFrom cfg (some s) env (0 + (ts.take k).length)
      (runFrom cfg (some s) env 0 0 (ts.take k)).pos [ts.get ⟨k, hk⟩]).tasks.length = 1 := by
    rw [runFrom_length]
    rfl
  have hhead := runFrom_head_processed cfg (some s) env (0 + (ts.take k).length)
    (runFrom cfg (some s) env 0 0 (ts.take k)).pos (ts.get ⟨k, hk⟩) [] hArun
  rw [hlenk, Nat.zero_add] at hhead
  refine ⟨?_, ?_, ?_⟩
  · intro i hi
    rcases Nat.lt_or_ge i k with hik | hik
    · have hp := hproc i (by omega)
      rw [runWorker, hsplit]
      simp only [hsplitA]
      constructor
      · simp only [List.mem_append]
        left
        simpa using hp.1
      · have hlt : i < (runFrom cfg (some s) env 0 0 (ts.take k)).tasks.length := by omega
        have hlt2 : i < ((runFrom cfg (some s) env 0 0 (ts.take k)).tasks ++
            (runFrom cfg (some s) env (0 + (ts.take k).length)
              (runFrom cfg (some s) env 0 0 (ts.take k)).pos [ts.get ⟨k, hk⟩]).tasks).length := by
          rw [List.length_append]
          omega
        rw [List.get?_append hlt2, List.get?_append hlt]
        exact hp.2
    · have hik' : i = k := by omega
      rw [runWorker, hsplit, hik']
      simp only [hsplitA]
      constructor
      · simp only [List.mem_append]
        right
        rw [hlenk, Nat.zero_add]
        exact hhead.1
      · have hge : ((runFrom cfg (some s) env 0 0 (ts.take k)).tasks).length ≤ k := by omega
        have hlt2 : k < ((runFrom cfg (some s) env 0 0 (ts.take k)).tasks ++
            (runFrom cfg (some s) env (0 + (ts.take k).length)
              (runFrom cfg (some s) env 0 0 (ts.take k)).pos [ts.get ⟨k, hk⟩]).tasks).length := by
          rw [List.length_append]
          omega
        rw [List.get?_append hlt2, List.get?_append_right hge, hlenA]
        have hzero : k - k = 0 := by omega
        rw [hzero, hlenk, Nat.zero_add]
        exact hhead.2
  · intro j hj hmem
    rw [runWorker, hsplit] at hmem
    simp only [hsplitA, List.mem_append] at hmem
    rcases hmem with hmem | hmem
    · have hb := runFrom_started_bounds cfg (some s) env (ts.take k) 0 0 j hmem
      rw [hlenk] at hb
      omega
    · have hb := runFrom_started_bounds cfg (some s) env [ts.get ⟨k, hk⟩] _ _ j hmem
      rw [hlenk] at hb
      simp only [List.length_cons, List.length_nil] at hb
      omega
  · intro j hj
    rw [runWorker, hsplit]
    have hlen1 : (runFrom cfg (some s) env 0 0 (ts.take (k + 1))).tasks.length = k + 1 := by
      rw [runFrom_length]
      exact hlenk1
    rw [List.get?_append_right (by rw [hlen1]; omega), hlen1, List.get?_drop]
    congr 1
    omega

/-- C3 instantiated: two tasks, the stop signal raised during task 0's
simulated progress (the boundary read of task 0 is read 0, the flag goes
down from read 1): task 0 is started and ends `failed` (cancelled), task 1
is never started and keeps its pending state. -/
theorem conv_C3_cancel_witness :
    (Mut.emitStarted 0 ∈ (runWorker cfgDefault (some 1) envGood [taskA, taskB]).trace ∧
      ∃ t, (runWorker cfgDefault (some 1) envGood [taskA, taskB]).tasks.get? 0 = some t ∧
        (t.status = .completed ∨ t.status = .failed)) ∧
    Mut.emitStarted 1 ∉ (runWorker cfgDefault (some 1) envGood [taskA, taskB]).trace ∧
    (runWorker cfgDefault (some 1) envGood [taskA, taskB]).tasks.get? 1 =
      [taskA, taskB].get? 1 := by
  have h := conv_C3_cancel cfgDefault envGood 1 [taskA, taskB] 0 (by decide)
    (by decide) (by decide)
  exact ⟨h.1 0 (Nat.le_refl 0), h.2.1 1 (by omega), h.2.2 1 (by omega)⟩

/-!
## C10 lemmas

Which `Progress` events and which command invocation a run's trace holds
for a given task: events of one iteration never mention another task, and
a task whose output directory is creatable gets exactly the simulated tick
sequence 0,10,…,100, all emitted before its `subprocess.run` call.
-/

/-- Events of `_convert_single` for task `j` are never a `Progress` event
or the command invocation of a different task `i`. -/
theorem convertSingle_invisible (cfg : WorkerConfig) (stopAt : Option Nat)
    (e : TaskEnv) (j c : Nat) (t : ConversionTask) (i : Nat) (h : i ≠ j) :
    ∀ m ∈ (convertSingle cfg stopAt e j c t).trace,
      progressOf i m = none ∧ isInvokeOf i m = false := by
  intro m hm
  by_cases hmk : e.mkdirOk
  · simp only [convertSingle, hmk, if_true] at hm
    by_cases hfin : (simProgress stopAt ticks c).finished
    · simp [hfin] at hm
      rcases hm with h1 | ⟨p, hp, h1⟩ | h1 <;> subst h1 <;>
        simp [progressOf, isInvokeOf, Ne.symm h]
    · simp [hfin] at hm
      rcases hm with h1 | ⟨p, hp, h1⟩ <;> subst h1 <;>
        simp [progressOf, isInvokeOf, Ne.symm h]
  · simp only [Bool.not_eq_true] at hmk
    rw [convertSingle_mkdir_fail cfg stopAt e j c t hmk] at hm
    simp at hm

/-- The loop starting at index `i0` never emits a `Progress` event or an
invocation for a task below `i0`. -/
theorem runFrom_invisible (cfg : WorkerConfig) (stopAt : Option Nat)
    (env : Nat → TaskEnv) :
    ∀ (ts : List ConversionTask) (i0 c i : Nat), i < i0 →
    ∀ m ∈ (runFrom cfg stopAt env i0 c ts).trace,
      progressOf i m = none ∧ isInvokeOf i m = false := by
  intro ts
  induction ts with
  | nil => intro i0 c i hlt m hm; simp [runFrom] at hm
  | cons t rest ih =>
    intro i0 c i hlt m hm
    by_cases h : isRun stopAt c
    · rw [runFrom_cons_of_run cfg stopAt env i0 c t rest h] at hm
      simp only [List.mem_cons, List.mem_append, List.mem_singleton] at hm
      rcases hm with ((h1 | h1 | h1) | h1 | h1 | h1) | h1
      · subst h1; simp [progressOf, isInvokeOf]
      · subst h1; simp [progressOf, isInvokeOf]
      · exact convertSingle_invisible cfg stopAt (env i0) i0 (c + 1) t i (by omega) m h1
      · subst h1; simp [progressOf, isInvokeOf]
      · subst h1; simp [progressOf, isInvokeOf]
      · simp at h1
      · exact ih (i0 + 1) _ i (by omega) m h1
    · simp only [Bool.not_eq_true] at h
      rw [runFrom_stopped cfg stopAt env i0 c _ h] at hm
      simp at hm

/-- Event-shape computation rules for the C10 selectors. -/
theorem isInvokeOf_started (i j : Nat) : isInvokeOf i (Mut.emitStarted j) = false := rfl

/-- Status writes are not invocations. -/
theorem isInvokeOf_setStatus (i j : Nat) (st : TaskStatus) :
    isInvokeOf i (Mut.setStatus j st) = false := rfl

/-- Log lines are not invocations. -/
theorem isInvokeOf_log (i : Nat) (a b : String) :
    isInvokeOf i (Mut.logEv a b) = false := rfl

/-- A task's own command invocation is recognised. -/
theorem isInvokeOf_invoke_self (i : Nat) (cmd : List String) :
    isInvokeOf i (Mut.invoke i cmd) = true := by
  simp [isInvokeOf]

/-- Signal starts carry no percentage. -/
theorem progressOf_started (i j : Nat) : progressOf i (Mut.emitStarted j) = none := rfl

/-- Status writes carry no percentage. -/
theorem progressOf_setStatus (i j : Nat) (st : TaskStatus) :
    progressOf i (Mut.setStatus j st) = none := rfl

/-- Log lines carry no percentage. -/
theorem progressOf_log (i : Nat) (a b : String) :
    progressOf i (Mut.logEv a b) = none := rfl

/-- Invocations carry no percentage. -/
theorem progressOf_invoke (i j : Nat) (cmd : List String) :
    progressOf i (Mut.invoke j cmd) = none := rfl

/-- The simulated tick events of task `i` filter back to the ticks. -/
theorem filterMap_progress_map (i : Nat) (qs : List Nat) :
    (qs.map (Mut.setProgress i)).filterMap (progressOf i) = qs := by
  induction qs with
  | nil => rfl
  | cons q qs ih => simp [progressOf, ih]

/-- Fused form of the previous lemma, as produced by `List.filterMap_map`. -/
theorem filterMap_progress_comp (i : Nat) (qs : List Nat) :
    qs.filterMap (progressOf i ∘ Mut.setProgress i) = qs := by
  induction qs with
  | nil => rfl
  | cons q qs ih => simp [progressOf, ih]

/-- A prefix invisible to task `i` changes none of the three progress
profile quantities. -/
theorem profile_extend (i : Nat) (l1 l2 : List Mut)
    (hinv : ∀ m ∈ l1, progressOf i m = none ∧ isInvokeOf i m = false) :
    (l1 ++ l2).filterMap (progressOf i) = l2.filterMap (progressOf i) ∧
    ((l1 ++ l2).takeWhile (fun m => !isInvokeOf i m)).filterMap (progressOf i) =
      (l2.takeWhile (fun m => !isInvokeOf i m)).filterMap (progressOf i) ∧
    (l1 ++ l2).any (isInvokeOf i) = l2.any (isInvokeOf i) := by
  induction l1 with
  | nil => simp
  | cons x l1 ih =>
    have hx := hinv x (by simp)
    have ih' := ih (fun m hm => hinv m (by simp [hm]))
    refine ⟨?_, ?_, ?_⟩
    · simp only [List.cons_append, List.filterMap_cons, hx.1, ih'.1]
    · rw [List.cons_append, List.takeWhile_cons]
      simp only [hx.2, Bool.not_false, if_true, List.filterMap_cons, hx.1, ih'.2.1]
    · simp only [List.cons_append, List.any_cons, hx.2, Bool.false_or, ih'.2.2]

/-- Without a stop signal, the trace of a run contains, for each task
whose output directory is creatable, exactly the `Progress` ticks
0,10,…,100 in order, all of them before that task's command invocation,
which does occur. -/
theorem runFrom_progress_profile (cfg : WorkerConfig) (env : Nat → TaskEnv) :
    ∀ (ts : List ConversionTask) (i0 c j : Nat), j < ts.length →
    (env (i0 + j)).mkdirOk = true →
    ((runFrom cfg none env i0 c ts).trace.filterMap (progressOf (i0 + j)) = ticks ∧
     ((runFrom cfg none env i0 c ts).trace.takeWhile
        (fun m => !isInvokeOf (i0 + j) m)).filterMap (progressOf (i0 + j)) = ticks ∧
     (runFrom cfg none env i0 c ts).trace.any (isInvokeOf (i0 + j)) = true) := by
  intro ts
  induction ts with
  | nil => intro i0 c j hj _; exact absurd hj (by simp)
  | cons t rest ih =>
    intro i0 c j hj hmk
    cases j with
    | zero =>
      rw [Nat.add_zero] at hmk ⊢
      rw [runFrom_cons_of_run cfg none env i0 c t rest (isRun_none c),
        convertSingle_none_ok cfg (env i0) i0 (c + 1) t hmk]
      have hrest := runFrom_invisible cfg none env rest (i0 + 1)
        (c + 1 + 11) i0 (by omega)
      have hrestFm : (runFrom cfg none env (i0 + 1) (c + 1 + 11) rest).trace.filterMap
          (progressOf i0) = [] :=
        List.filterMap_eq_nil_iff.mpr (fun m hm => (hrest m hm).1)
      have hmapAll : ∀ m ∈ ticks.map (Mut.setProgress i0),
          (!isInvokeOf i0 m) = true := by
        intro m hm
        obtain ⟨p, _, rfl⟩ := List.mem_map.mp hm
        simp [isInvokeOf]
      refine ⟨?_, ?_, ?_⟩
      · simp [progressOf, filterMap_progress_map, filterMap_progress_comp, hrestFm,
          List.filterMap_append]
      · simp only [List.cons_append, List.append_assoc, List.singleton_append]
        rw [List.takeWhile_cons, List.takeWhile_cons, List.takeWhile_cons]
        simp only [isInvokeOf_started, isInvokeOf_setStatus, isInvokeOf_log,
          Bool.not_false, if_true]
        rw [List.takeWhile_append_of_pos hmapAll, List.takeWhile_cons]
        simp only [isInvokeOf_invoke_self, Bool.not_true]
        simp [progressOf_started, progressOf_setStatus, progressOf_log,
          filterMap_progress_map, filterMap_progress_comp]
      · simp [isInvokeOf]
    | succ j =>
      have harith : i0 + (j + 1) = i0 + 1 + j := by omega
      rw [harith] at hmk ⊢
      rw [runFrom_cons_of_run cfg none env i0 c t rest (isRun_none c)]
      have hseg : ∀ m ∈ (Mut.emitStarted i0 :: Mut.setStatus i0 .converting ::
          (convertSingle cfg none (env i0) i0 (c + 1) t).trace
          ++ [Mut.setStatus i0
                (if (convertSingle cfg none (env i0) i0 (c + 1) t).ok then
                  TaskStatus.completed else TaskStatus.failed),
              Mut.emitCompleted i0 (convertSingle cfg none (env i0) i0 (c + 1) t).ok
                (convertSingle cfg none (env i0) i0 (c + 1) t).msg]),
          progressOf (i0 + 1 + j) m = none ∧ isInvokeOf (i0 + 1 + j) m = false := by
        intro m hm
        simp only [List.mem_cons, List.mem_append, List.mem_singleton] at hm
        rcases hm with (h1 | h1 | h1) | h1 | h1 | h1
        · subst h1; simp [progressOf, isInvokeOf]
        · subst h1; simp [progressOf, isInvokeOf]
        · exact convertSingle_invisible cfg none (env i0) i0 (c + 1) t _ (by omega) m h1
        · subst h1; simp [progressOf, isInvokeOf]
        · subst h1; simp [progressOf, isInvokeOf]
        · simp at h1
      have hext := profile_extend (i0 + 1 + j) _
        (runFrom cfg none env (i0 + 1)
          (convertSingle cfg none (env i0) i0 (c + 1) t).pos rest).trace hseg
      rw [hext.1, hext.2.1, hext.2.2]
      exact ih (i0 + 1) _ j (by simpa using hj) hmk

/-!
## C10

The claim says every task processed without the stop signal gets exactly
the Progress sequence 0,10,…,100, all before the external command runs.
That is what the simulated loop does — but only on the path where
`os.makedirs` succeeds.  A task whose output directory cannot be created
is still processed (Started and completion are emitted) yet produces no
Progress event at all, so the claim's "every task" is too strong; the
amended claim restricts it to tasks whose output directory creation
succeeds.
-/

set_option maxRecDepth 8192 in
/-- C10 counterexample: with `os.makedirs` failing, the single task is
processed without any stop signal (its `Started` and completion events are
in the trace) yet the worker emits no `Progress` event at all — not the
sequence 0,10,…,100 the claim promises for every processed task. -/
theorem conv_C10_cex :
    Mut.emitStarted 0 ∈ (runWorker cfgDefault none envMkdirFail [taskA]).trace ∧
    Mut.emitCompleted 0 false "Conversion error: denied" ∈
      (runWorker cfgDefault none envMkdirFail [taskA]).trace ∧
    (runWorker cfgDefault none envMkdirFail [taskA]).trace.filterMap (progressOf 0) = [] := by
  refine ⟨?_, ?_, ?_⟩ <;> decide

/-- C10 amended: for every task whose output-directory creation succeeds,
an uncancelled run's trace contains exactly the Progress ticks
0,10,…,100 for that task, in order; all of them precede the task's
external command invocation (the trace up to the first invocation for the
task already contains all eleven ticks), and that invocation does occur —
so the reported percentages are fixed simulated values emitted before
ffmpeg ever runs, independent of its outcome. -/
theorem conv_C10_simulated (cfg : WorkerConfig) (env : Nat → TaskEnv)
    (ts : List ConversionTask) (j : Nat) (hj : j < ts.length)
    (hmk : (env j).mkdirOk = true) :
    (runWorker cfg none env ts).trace.filterMap (progressOf j) = ticks ∧
    ((runWorker cfg none env ts).trace.takeWhile
      (fun m => !isInvokeOf j m)).filterMap (progressOf j) = ticks ∧
    (runWorker cfg none env ts).trace.any (isInvokeOf j) = true := by
  have h := runFrom_progress_profile cfg env ts 0 0 j hj (by simpa using hmk)
  simpa [runWorker] using h

set_option maxRecDepth 8192 in
/-- C10 amended, instantiated on one task with a successful
environment. -/
theorem conv_C10_simulated_witness :
    (runWorker cfgDefault none envGood [taskA]).trace.filterMap (progressOf 0) = ticks ∧
    ((runWorker cfgDefault none envGood [taskA]).trace.takeWhile
      (fun m => !isInvokeOf 0 m)).filterMap (progressOf 0) = ticks ∧
    (runWorker cfgDefault none envGood [taskA]).trace.any (isInvokeOf 0) = true :=
  conv_C10_simulated cfgDefault envGood [taskA] 0 (by decide) (by decide)

/-!
## C9 lemmas

`_load_settings` walks the parsed document with a `hasattr`-guarded
`setattr`; keys that name no field do nothing, and a field whose key never
occurs in the document is never written.
-/

/-- A key naming no `AppConfig` field leaves the config untouched. -/
theorem setKey_unknown (c : AppConfig) (k : String) (v : JVal)
    (h : isKnownKey k = false) : setKey c k v = c := by
  simp only [isKnownKey, Bool.or_eq_false_iff] at h
  simp only [beq_eq_false_iff_ne, ne_eq] at h
  simp [setKey, h.1.1.1.1.1.1.1.1, h.1.1.1.1.1.1.1.2, h.1.1.1.1.1.1.2,
    h.1.1.1.1.1.2, h.1.1.1.1.2, h.1.1.1.2, h.1.1.2, h.1.2, h.2]

/-- A `setattr` under any other key leaves `default_bitrate` unchanged. -/
theorem setKey_default_bitrate_ne (c : AppConfig) (k : String) (v : JVal)
    (h : k ≠ "default_bitrate") : (setKey c k v).default_bitrate = c.default_bitrate := by
  unfold setKey
  repeat' split
  all_goals simp_all

/-- A `setattr` under any other key leaves `default_format` unchanged. -/
theorem setKey_default_format_ne (c : AppConfig) (k : String) (v : JVal)
    (h : k ≠ "default_format") : (setKey c k v).default_format = c.default_format := by
  unfold setKey
  repeat' split
  all_goals simp_all

/-- A `setattr` under any other key leaves `output_directory` unchanged. -/
theorem setKey_output_directory_ne (c : AppConfig) (k : String) (v : JVal)
    (h : k ≠ "output_directory") : (setKey c k v).output_directory = c.output_directory := by
  unfold setKey
  repeat' split
  all_goals simp_all

/-- A `setattr` under any other key leaves `preserve_metadata` unchanged. -/
theorem setKey_preserve_metadata_ne (c : AppConfig) (k : String) (v : JVal)
    (h : k ≠ "preserve_metadata") : (setKey c k v).preserve_metadata = c.preserve_metadata := by
  unfold setKey
  repeat' split
  all_goals simp_all

/-- A `setattr` under any other key leaves `extract_cover` unchanged. -/
theorem setKey_extract_cover_ne (c : AppConfig) (k : String) (v : JVal)
    (h : k ≠ "extract_cover") : (setKey c k v).extract_cover = c.extract_cover := by
  unfold setKey
  repeat' split
  all_goals simp_all

/-- A `setattr` under any other key leaves `theme` unchanged. -/
theorem setKey_theme_ne (c : AppConfig) (k : String) (v : JVal)
    (h : k ≠ "theme") : (setKey c k v).theme = c.theme := by
  unfold setKey
  repeat' split
  all_goals simp_all

/-- A `setattr` under any other key leaves `max_concurrent` unchanged. -/
theorem setKey_max_concurrent_ne (c : AppConfig) (k : String) (v : JVal)
    (h : k ≠ "max_concurrent") : (setKey c k v).max_concurrent = c.max_concurrent := by
  unfold setKey
  repeat' split
  all_goals simp_all

/-- A `setattr` under any other key leaves `auto_clear_list` unchanged. -/
theorem setKey_auto_clear_list_ne (c : AppConfig) (k : String) (v : JVal)
    (h : k ≠ "auto_clear_list") : (setKey c k v).auto_clear_list = c.auto_clear_list := by
  unfold setKey
  repeat' split
  all_goals simp_all

/-- A `setattr` under any other key leaves `notification_sound` unchanged. -/
theorem setKey_notification_sound_ne (c : AppConfig) (k : String) (v : JVal)
    (h : k ≠ "notification_sound") : (setKey c k v).notification_sound = c.notification_sound := by
  unfold setKey
  repeat' split
  all_goals simp_all

/-- A projection that no key of the document can change survives the
whole load loop. -/
theorem loadSettings_preserve {α : Type} (f : AppConfig → α) (key : String)
    (hstep : ∀ (c : AppConfig) (k : String) (v : JVal), k ≠ key →
      f (setKey c k v) = f c) :
    ∀ (doc : List (String × JVal)) (c : AppConfig),
    (∀ kv ∈ doc, kv.1 ≠ key) → f (loadSettings doc c) = f c := by
  intro doc
  induction doc with
  | nil => intro c _; rfl
  | cons kv rest ih =>
    intro c hk
    have h1 : f (loadSettings (kv :: rest) c) =
        f (loadSettings rest (setKey c kv.1 kv.2)) := rfl
    rw [h1, ih _ (fun x hx => hk x (by simp [hx]))]
    exact hstep c kv.1 kv.2 (hk kv (by simp))

/-- A document made only of unknown keys loads to the unchanged config. -/
theorem loadSettings_unknown (doc : List (String × JVal)) (c : AppConfig)
    (h : ∀ kv ∈ doc, isKnownKey kv.1 = false) : loadSettings doc c = c := by
  induction doc generalizing c with
  | nil => rfl
  | cons kv rest ih =>
    have h1 : loadSettings (kv :: rest) c = loadSettings rest (setKey c kv.1 kv.2) := rfl
    rw [h1, setKey_unknown c kv.1 kv.2 (h kv (by simp))]
    exact ih _ (fun x hx => h x (by simp [hx]))

/-!
## C9

`_load_settings` is total over every outcome: a missing, unreadable or
corrupt settings file is swallowed by the bare `except` and leaves every
field at its current (default) value; keys that are not `AppConfig`
fields fail the `hasattr` check and are skipped; fields whose key is
absent from the document are simply never assigned.
-/

/-- C9: loading never fails — a corrupt or unreadable document leaves the
config untouched, a document of only unknown keys changes nothing, and any
field whose key is absent from the document keeps its prior (default)
value. -/
theorem conv_C9_load_safe :
    (∀ c : AppConfig, loadFromFile none c = c) ∧
    (∀ (doc : List (String × JVal)) (c : AppConfig),
      (∀ kv ∈ doc, isKnownKey kv.1 = false) → loadSettings doc c = c) ∧
    (∀ (doc : List (String × JVal)) (c : AppConfig) (k : String),
      (∀ kv ∈ doc, kv.1 ≠ k) →
      getField k (loadSettings doc c) = getField k c) := by
  refine ⟨fun c => rfl, fun doc c h => loadSettings_unknown doc c h, ?_⟩
  intro doc c k h
  by_cases h1 : k = "default_bitrate"
  · subst h1
    have hp := loadSettings_preserve (fun x => x.default_bitrate) "default_bitrate"
      (fun x kk v hk => setKey_default_bitrate_ne x kk v hk) doc c h
    simp [getField, hp]
  by_cases h2 : k = "default_format"
  · subst h2
    have hp := loadSettings_preserve (fun x => x.default_format) "default_format"
      (fun x kk v hk => setKey_default_format_ne x kk v hk) doc c h
    simp [getField, hp]
  by_cases h3 : k = "output_directory"
  · subst h3
    have hp := loadSettings_preserve (fun x => x.output_directory) "output_directory"
      (fun x kk v hk => setKey_output_directory_ne x kk v hk) doc c h
    simp [getField, hp]
  by_cases h4 : k = "preserve_metadata"
  · subst h4
    have hp := loadSettings_preserve (fun x => x.preserve_metadata) "preserve_metadata"
      (fun x kk v hk => setKey_preserve_metadata_ne x kk v hk) doc c h
    simp [getField, hp]
  by_cases h5 : k = "extract_cover"
  · subst h5
    have hp := loadSettings_preserve (fun x => x.extract_cover) "extract_cover"
      (fun x kk v hk => setKey_extract_cover_ne x kk v hk) doc c h
    simp [getField, hp]
  by_cases h6 : k = "theme"
  · subst h6
    have hp := loadSettings_preserve (fun x => x.theme) "theme"
      (fun x kk v hk => setKey_theme_ne x kk v hk) doc c h
    simp [getField, hp]
  by_cases h7 : k = "max_concurrent"
  · subst h7
    have hp := loadSettings_preserve (fun x => x.max_concurrent) "max_concurrent"
      (fun x kk v hk => setKey_max_concurrent_ne x kk v hk) doc c h
    simp [getField, hp]
  by_cases h8 : k = "auto_clear_list"
  · subst h8
    have hp := loadSettings_preserve (fun x => x.auto_clear_list) "auto_clear_list"
      (fun x kk v hk => setKey_auto_clear_list_ne x kk v hk) doc c h
    simp [getField, hp]
  by_cases h9 : k = "notification_sound"
  · subst h9
    have hp := loadSettings_preserve (fun x => x.notification_sound) "notification_sound"
      (fun x kk v hk => setKey_notification_sound_ne x kk v hk) doc c h
    simp [getField, hp]
  · simp [getField, h1, h2, h3, h4, h5, h6, h7, h8, h9]

/-- C9 instantiated: an unknown-key document and a document missing the
theme key, both loaded over the defaults. -/
theorem conv_C9_load_safe_witness :
    loadFromFile none {} = ({} : AppConfig) ∧
    loadSettings [("mystery_key", JVal.jnum 7)] {} = ({} : AppConfig) ∧
    getField "theme" (loadSettings [("max_concurrent", JVal.jnum 4)] {}) =
      getField "theme" ({} : AppConfig) :=
  ⟨conv_C9_load_safe.1 {},
   conv_C9_load_safe.2.1 [("mystery_key", JVal.jnum 7)] {} (by decide),
   conv_C9_load_safe.2.2 [("max_concurrent", JVal.jnum 4)] {} "theme" (by decide)⟩

end Mp4ToMp3
